import Mathlib

/-!
Verification development for the wabac CORS proxy worker (src/index.ts).

The worker is embedded shallowly:
* HTTP header maps (the platform `Headers` class) are modelled as
  association lists whose stored names are lowercase and kept in sorted
  order, which matches the observable behaviour of `Headers`
  (`set`/`get`/`delete` are case-insensitive, iteration yields lowercase
  names in sorted order, last write wins).
* `new URL(u).origin` is an external platform capability; the code only
  compares the origins of two URL strings, so it is abstracted as a
  function parameter `originOf : String -> String`.
* `fetch` is abstracted as an oracle mapping a URL to an upstream
  response; the unbounded redirect-follow loop of `fetchWithRedirCheck`
  is given explicit fuel and returns `none` when the fuel runs out.
* Bodies are opaque values of an abstract type.
* The regular expression `TS_URL = /([\d]+)id_\/(https?:.*)/` is
  implemented directly over the character list (leftmost match, greedy
  digit run, `.` stopping at a newline).
-/

set_option maxRecDepth 4096

/-- Header maps: association lists of (lowercase name, value) kept sorted by name. -/

abbrev HeadersL := List (String × String)

/-- JavaScript truthiness of a nullable string: `null` and `""` are falsy. -/

def jsTruthy (o : Option String) : Bool := decide (o.getD "" ≠ "")

/-- ASCII lowercasing of a header name, written structurally over the
character list so that it evaluates by kernel reduction. -/

def lower (s : String) : String := String.mk (s.data.map Char.toLower)

/-- Structural lexicographic order on strings (by character code), used for
the sorted-insertion order of the `Headers` model; evaluates by kernel
reduction. -/

def charListLt : List Char → List Char → Bool
  | _, [] => false
  | [], _ :: _ => true
  | a :: as, b :: bs =>
    if a.toNat < b.toNat then true
    else if b.toNat < a.toNat then false
    else charListLt as bs

def strLt (a b : String) : Bool := charListLt a.data b.data

/-- Model of `Headers.prototype.set`: store under the lowercase name, replacing
any previous value, inserting new names in sorted order. -/

def hset (hs : HeadersL) (n v : String) : HeadersL :=
  match hs with
  | [] => [((lower n), v)]
  | p :: rest =>
    if p.1 = (lower n) then ((lower n), v) :: rest
    else if strLt (lower n) p.1 then ((lower n), v) :: p :: rest
    else p :: hset rest n v

/-- Model of `Headers.prototype.get` (case-insensitive lookup, `null` mapped to `none`). -/

def hget (hs : HeadersL) (n : String) : Option String :=
  (hs.find? (fun p => p.1 == (lower n))).map Prod.snd

/-- Model of `Headers.prototype.delete`. -/

def hdel (hs : HeadersL) (n : String) : HeadersL :=
  hs.filter (fun p => p.1 != (lower n))

/-- Structural model of `String.startsWith`, evaluating by kernel reduction. -/

def strStartsWith (s pre : String) : Bool := pre.data.isPrefixOf s.data

/-- Names skipped by the header-copy loop of `handleLiveWebProxy`
(lines 50-59 of src/index.ts). -/

def skipName (n : String) : Bool :=
  strStartsWith n "cf-" || strStartsWith n "x-pywb-" || n == "x-proxy-referer"

/-- Names that are neither platform-internal (cf- or x-pywb- prefixed) nor
the filtered x-proxy-referer override. -/
def goodName (n : String) : Prop :=
  strStartsWith n "cf-" = false ∧ strStartsWith n "x-pywb-" = false
  ∧ n ≠ "x-proxy-referer"

instance (n : String) : Decidable (goodName n) := by
  unfold goodName
  infer_instance

/-- Body of the copy loop: `proxyHeaders.set(name, value)` unless skipped. -/

def copyStep (acc : HeadersL) (p : String × String) : HeadersL :=
  if skipName p.1 then acc else hset acc p.1 p.2

/-- The copy loop `for (const [name, value] of request.headers)` building the
fresh `proxyHeaders` map. -/

def copyHeaders (req : HeadersL) : HeadersL :=
  req.foldl copyStep []

/-- The `x-proxy-referer` translation block (lines 62-73): set `Referer`, and
forge `Origin` / `Sec-Fetch-Site` from the comparison of the referrer origin
with the target origin. -/

def referrerBlock (originOf : String → String) (proxyUrl : String)
    (req ph : HeadersL) : HeadersL :=
  if jsTruthy (hget req "x-proxy-referer") then
    let r := (hget req "x-proxy-referer").getD ""
    let ph1 := hset ph "Referer" r
    if originOf r ≠ originOf proxyUrl then
      hset (hset ph1 "Origin" (originOf r)) "Sec-Fetch-Site" "cross-origin"
    else
      hset (hdel ph1 "Origin") "Sec-Fetch-Site" "same-origin"
  else ph

/-- The `x-proxy-user-agent` translation block (lines 74-78): delete the
override header and set `User-Agent`. -/

def uaBlock (req ph : HeadersL) : HeadersL :=
  if jsTruthy (hget req "x-proxy-user-agent") then
    hset (hdel ph "x-proxy-user-agent") "User-Agent"
      ((hget req "x-proxy-user-agent").getD "")
  else ph

/-- The `x-proxy-cookie` translation block (lines 81-84): set `Cookie`.
Note the source does not delete `x-proxy-cookie` from `proxyHeaders`. -/

def cookieBlock (req ph : HeadersL) : HeadersL :=
  if jsTruthy (hget req "x-proxy-cookie") then
    hset ph "Cookie" ((hget req "x-proxy-cookie").getD "")
  else ph

/-- Header Translator of `handleLiveWebProxy` (lines 49-84): copy loop, then
referrer block, then user-agent block, then `proxyHeaders.delete("host")`,
then cookie block. -/

def buildProxyHeaders (originOf : String → String) (proxyUrl : String)
    (req : HeadersL) : HeadersL :=
  cookieBlock req
    (hdel (uaBlock req (referrerBlock originOf proxyUrl req (copyHeaders req))) "host")

/-- Outbound body selection (lines 86-87): GET and HEAD requests are sent
with a null body, any other method forwards the inbound body. -/

def outboundBody {β : Type} (method : String) (b : Option β) : Option β :=
  if method = "GET" ∨ method = "HEAD" then none else b

/-- Upstream response model: status, status text, headers, opaque body, plus
the two ad-hoc annotation fields `resp.location` / `resp.ts` that
`fetchWithRedirCheck` attaches to a surfaced redirect. -/

structure UpstreamResp (β : Type) where
  status : Nat
  statusText : String
  headers : HeadersL
  body : Option β
  location : Option String
  ts : Option String
deriving DecidableEq

/-- Outgoing response model; the body is either the synthesized error string
or the upstream body passed through. -/

structure OutgoingResp (β : Type) where
  status : Nat
  statusText : String
  headers : HeadersL
  body : String ⊕ Option β

/-- Matcher for the scheme-and-rest tail `(https?:.*)` of `TS_URL`; the
captured group runs to the end of the line. -/

def schemeTail (cs : List Char) : Option (List Char) :=
  match cs with
  | 'h' :: 't' :: 't' :: 'p' :: rest =>
    match rest with
    | 's' :: ':' :: r =>
      some ('h' :: 't' :: 't' :: 'p' :: 's' :: ':' :: r.takeWhile (fun c => c ≠ '\n'))
    | ':' :: r =>
      some ('h' :: 't' :: 't' :: 'p' :: ':' :: r.takeWhile (fun c => c ≠ '\n'))
    | _ => none
  | _ => none

/-- Attempt to match `TS_URL` at the head of the character list: a nonempty
digit run, the literal `id_/`, then the scheme tail.  Returns the two
captured groups. -/

def tsAt (cs : List Char) : Option (String × String) :=
  let ds := cs.takeWhile Char.isDigit
  if ds.isEmpty then none
  else
    match cs.dropWhile Char.isDigit with
    | 'i' :: 'd' :: '_' :: '/' :: rest =>
      (schemeTail rest).map (fun g2 => (String.mk ds, String.mk g2))
    | _ => none

/-- Leftmost-match scan for `TS_URL`. -/

def tsMatchAux : List Char → Option (String × String)
  | [] => none
  | c :: rest =>
    match tsAt (c :: rest) with
    | some r => some r
    | none => tsMatchAux rest

/-- Model of `str.match(TS_URL)` where `TS_URL = /([\d]+)id_\/(https?:.*)/`
(line 1 of src/index.ts): `some (m1, m2)` holds the two captured groups. -/

def tsMatch (s : String) : Option (String × String) :=
  tsMatchAux s.data

/-- Result of one iteration of the redirect-follow loop: either loop again
with a new target URL, or stop and return the (possibly annotated) response. -/

inductive RedirResult (β : Type) where
  | continueTo (url : String)
  | done (resp : UpstreamResp β)
deriving DecidableEq

/-- One iteration of the `while (true)` loop body of `fetchWithRedirCheck`
(lines 238-265), given the fetched response for the current `url`. -/

def redirStep {β : Type} (url : String) (noHttps : Bool)
    (resp : UpstreamResp β) : RedirResult β :=
  if 300 < resp.status ∧ resp.status < 400 ∧ resp.status ≠ 304 then
    if jsTruthy (hget resp.headers "location") then
      let loc := (hget resp.headers "location").getD ""
      match tsMatch loc, tsMatch url with
      | some m, some m2 =>
        if m.2 = m2.2 then RedirResult.continueTo loc
        else if noHttps ∧ strStartsWith loc "https://" then RedirResult.continueTo loc
        else RedirResult.done
          ⟨resp.status, resp.statusText, resp.headers, resp.body, some m.2, some m.1⟩
      | some m, none =>
        if noHttps ∧ strStartsWith loc "https://" then RedirResult.continueTo loc
        else RedirResult.done
          ⟨resp.status, resp.statusText, resp.headers, resp.body, some m.2, some m.1⟩
      | none, _ =>
        if noHttps ∧ strStartsWith loc "https://" then RedirResult.continueTo loc
        else RedirResult.done resp
    else RedirResult.done resp
  else RedirResult.done resp

/-- The redirect-follow loop, fuelled; `oracle` is the transport `fetch` for
the fixed method, headers and body of this request.  `none` models the
unbounded source loop running out of fuel. -/

def redirLoop {β : Type} (oracle : String → UpstreamResp β) (noHttps : Bool) :
    Nat → String → Option (UpstreamResp β)
  | 0, _ => none
  | n + 1, url =>
    match redirStep url noHttps (oracle url) with
    | RedirResult.continueTo u2 => redirLoop oracle noHttps n u2
    | RedirResult.done r => some r

/-- Model of `fetchWithRedirCheck` (lines 216-269): extract and remove the
`X-OWT-No-HTTPS` control header, then run the redirect-follow loop. -/

def fetchWithRedirCheck {β : Type}
    (oracle : String → String → HeadersL → Option β → UpstreamResp β)
    (fuel : Nat) (url method : String) (headers : HeadersL) (body : Option β) :
    Option (UpstreamResp β) :=
  let noHttps := jsTruthy (hget headers "X-OWT-No-HTTPS")
  let headers2 := if noHttps then hdel headers "X-OWT-No-HTTPS" else headers
  redirLoop (fun u => oracle u method headers2 body) noHttps fuel url

/-- Model of `addCORSHeaders` (lines 136-171): reflect the inbound `Origin`,
allow credentials, and expose the fixed header list plus all upstream header
names except the two encoding headers. -/

def addCORSHeaders (headers req respHeaders : HeadersL) : HeadersL :=
  if jsTruthy (hget req "Origin") then
    let origin := (hget req "Origin").getD ""
    let allowHeaders := ["x-redirect-status", "x-redirect-statusText",
      "X-Proxy-Set-Cookie", "x-orig-location", "x-orig-ts"]
    let h1 := hset headers "Access-Control-Allow-Origin" origin
    let h2 := hset h1 "Access-Control-Allow-Credentials" "true"
    let exposed := allowHeaders ++ (respHeaders.map Prod.fst).filter
      (fun h => !(h == "transfer-encoding" || h == "content-encoding"))
    hset h2 "Access-Control-Expose-Headers" (String.intercalate "," exposed)
  else headers

/-- The redirect statuses listed on line 106 of src/index.ts. -/

def redirectStatuses : List Nat := [301, 302, 303, 307, 308]

/-- Lines 98-101: expose an upstream `Set-Cookie` under `X-Proxy-Set-Cookie`. -/

def sidecarHeaders {β : Type} (resp : UpstreamResp β) : HeadersL :=
  if jsTruthy (hget resp.headers "set-cookie") then
    hset resp.headers "X-Proxy-Set-Cookie" ((hget resp.headers "set-cookie").getD "")
  else resp.headers

/-- Lines 106-117: redirect-metadata headers recorded when the final upstream
status is one of the listed redirect statuses. -/

def redirMetaHeaders {β : Type} (h : HeadersL) (resp : UpstreamResp β) : HeadersL :=
  if resp.status ∈ redirectStatuses then
    let h1 := hset h "x-redirect-status" (toString resp.status)
    let h2 := hset h1 "x-redirect-statusText" resp.statusText
    let h3 :=
      if jsTruthy (hget resp.headers "location") then
        hset h2 "x-orig-location" ((hget resp.headers "location").getD "")
      else if jsTruthy resp.location then
        hset h2 "x-orig-location" (resp.location.getD "")
      else h2
    if jsTruthy resp.ts then hset h3 "x-orig-ts" (resp.ts.getD "") else h3
  else h

/-- Lines 103-120: the externally visible status (redirects collapse to 200). -/

def composeStatus {β : Type} (resp : UpstreamResp β) : Nat :=
  if resp.status ∈ redirectStatuses then 200 else resp.status

/-- Response Header Composer part of `handleLiveWebProxy` (lines 96-132):
copy upstream headers, add the `Set-Cookie` sidecar and redirect metadata,
synthesize CORS headers, and select the body. -/

def composeResponse {β : Type} (req : HeadersL) (resp : UpstreamResp β) :
    OutgoingResp β :=
  let status := composeStatus resp
  let headers := addCORSHeaders (redirMetaHeaders (sidecarHeaders resp) resp) req resp.headers
  let body : String ⊕ Option β :=
    if 400 ≤ status ∧ jsTruthy (hget resp.headers "memento-datetime") = false then
      Sum.inl ("Sorry, this page was not found or could not be loaded: (Error "
        ++ toString status ++ ")")
    else Sum.inr resp.body
  ⟨status, resp.statusText, headers, body⟩

/-- Model of `handleLiveWebProxy` (lines 41-133): normalize a
protocol-relative target, translate the headers, fetch with redirect
checking, and compose the outgoing response. -/

def handleLiveWebProxy {β : Type} (originOf : String → String)
    (oracle : String → String → HeadersL → Option β → UpstreamResp β)
    (fuel : Nat) (proxyUrl method : String) (req : HeadersL) (reqBody : Option β) :
    Option (OutgoingResp β) :=
  let target := if strStartsWith proxyUrl "//" then "https:" ++ proxyUrl else proxyUrl
  let ph := buildProxyHeaders originOf target req
  let body := outboundBody method reqBody
  match fetchWithRedirCheck oracle fuel target method ph body with
  | none => none
  | some resp => some (composeResponse req resp)

/-- The allow-list constant of lines 15-20 of src/index.ts. -/

def CORS_ALLOWED_ORIGINS : Option (List String) :=
  some ["http://localhost:10001", "http://localhost:8000",
    "http://localhost:3000", "https://proxy-test.slax.dev"]

/-- Simple responses produced by `handleOptions` and `notFound`. -/

structure SimpleResp where
  status : Nat
  headers : HeadersL
  body : Option String
deriving DecidableEq

/-- Model of `notFound` (lines 272-277): a JSON error body. -/

def notFound (err : String) (status : Nat) : SimpleResp :=
  ⟨status, hset [] "Content-Type" "application/json",
    some ("\x7b\"error\":\"" ++ err ++ "\"\x7d")⟩

/-- The guard of lines 179-184: an allow-list is configured and nonempty, the
request has a truthy `Origin`, and that origin is not in the list. -/

def originDisallowed (origin : Option String) : Bool :=
  match CORS_ALLOWED_ORIGINS with
  | some l => !l.isEmpty && jsTruthy origin && !l.contains (origin.getD "")
  | none => false

/-- Model of `handleOptions` (lines 174-213). -/

def handleOptions (req : HeadersL) : SimpleResp :=
  let origin := hget req "Origin"
  let method := hget req "Access-Control-Request-Method"
  let hdrs := hget req "Access-Control-Request-Headers"
  if originDisallowed origin then notFound "origin not allowed" 403
  else if origin.isSome && method.isSome && hdrs.isSome then
    ⟨200,
      hset (hset (hset (hset [] "Access-Control-Allow-Method" (method.getD ""))
        "Access-Control-Allow-Headers" (hdrs.getD ""))
        "Access-Control-Allow-Origin" (origin.getD ""))
        "Access-Control-Allow-Credentials" "true",
      none⟩
  else ⟨200, hset [] "Allow" "GET, HEAD, POST, OPTIONS", none⟩

theorem hget_nil (m : String) : hget [] m = none := rfl

theorem hget_cons_pos {p : String × String} {rest : HeadersL} {m : String}
    (h : p.1 = (lower m)) : hget (p :: rest) m = some p.2 := by
  unfold hget
  rw [List.find?_cons_of_pos _ (by simpa using h)]
  rfl

theorem hget_cons_neg {p : String × String} {rest : HeadersL} {m : String}
    (h : p.1 ≠ (lower m)) : hget (p :: rest) m = hget rest m := by
  unfold hget
  rw [List.find?_cons_of_neg _ (by simpa using h)]

theorem hdel_cons_pos {p : String × String} {rest : HeadersL} {n : String}
    (h : p.1 ≠ (lower n)) : hdel (p :: rest) n = p :: hdel rest n := by
  unfold hdel
  rw [List.filter_cons_of_pos (by simpa using h)]

theorem hdel_cons_neg {p : String × String} {rest : HeadersL} {n : String}
    (h : p.1 = (lower n)) : hdel (p :: rest) n = hdel rest n := by
  unfold hdel
  rw [List.filter_cons_of_neg (by simpa using h)]

theorem hget_hset_eq (hs : HeadersL) {m n : String} (v : String)
    (h : (lower m) = (lower n)) : hget (hset hs n v) m = some v := by
  induction hs with
  | nil => rw [hset, hget_cons_pos h.symm]
  | cons p rest ih =>
    by_cases h1 : p.1 = (lower n)
    · rw [hset, if_pos h1, hget_cons_pos h.symm]
    · by_cases h2 : strLt (lower n) p.1 = true
      · rw [hset, if_neg h1, if_pos h2, hget_cons_pos h.symm]
      · rw [hset, if_neg h1, if_neg h2, hget_cons_neg (by rw [h]; exact h1)]
        exact ih

theorem hget_hset_ne (hs : HeadersL) {m n : String} (v : String)
    (h : (lower m) ≠ (lower n)) : hget (hset hs n v) m = hget hs m := by
  have hnm : (lower n) ≠ (lower m) := fun e => h e.symm
  induction hs with
  | nil => rw [hset, hget_cons_neg hnm]
  | cons p rest ih =>
    by_cases h1 : p.1 = (lower n)
    · rw [hset, if_pos h1, hget_cons_neg hnm, hget_cons_neg (by rw [h1]; exact hnm)]
    · by_cases h2 : strLt (lower n) p.1 = true
      · rw [hset, if_neg h1, if_pos h2, hget_cons_neg hnm]
      · rw [hset, if_neg h1, if_neg h2]
        by_cases hpm : p.1 = (lower m)
        · rw [hget_cons_pos hpm, hget_cons_pos hpm]
        · rw [hget_cons_neg hpm, hget_cons_neg hpm]
          exact ih

theorem hget_hdel_eq (hs : HeadersL) {m n : String}
    (h : (lower m) = (lower n)) : hget (hdel hs n) m = none := by
  induction hs with
  | nil => rfl
  | cons p rest ih =>
    by_cases h1 : p.1 = (lower n)
    · rw [hdel_cons_neg h1]
      exact ih
    · rw [hdel_cons_pos h1, hget_cons_neg (by rw [← h] at h1; exact h1)]
      exact ih

theorem hget_hdel_ne (hs : HeadersL) {m n : String}
    (h : (lower m) ≠ (lower n)) : hget (hdel hs n) m = hget hs m := by
  induction hs with
  | nil => rfl
  | cons p rest ih =>
    by_cases h1 : p.1 = (lower n)
    · rw [hdel_cons_neg h1, hget_cons_neg (by rw [h1]; exact fun e => h e.symm)]
      exact ih
    · rw [hdel_cons_pos h1]
      by_cases hpm : p.1 = (lower m)
      · rw [hget_cons_pos hpm, hget_cons_pos hpm]
      · rw [hget_cons_neg hpm, hget_cons_neg hpm]
        exact ih

theorem mem_hset {hs : HeadersL} {n v : String} {p : String × String}
    (h : p ∈ hset hs n v) : p = ((lower n), v) ∨ p ∈ hs := by
  induction hs with
  | nil => simpa [hset] using h
  | cons q rest ih =>
    by_cases h1 : q.1 = (lower n)
    · simp only [hset, if_pos h1, List.mem_cons] at h
      rcases h with h | h
      · exact Or.inl h
      · exact Or.inr (List.mem_cons_of_mem _ h)
    · by_cases h2 : strLt (lower n) q.1 = true
      · simp only [hset, if_neg h1, if_pos h2, List.mem_cons] at h
        rcases h with h | h | h
        · exact Or.inl h
        · exact Or.inr (by simp [h])
        · exact Or.inr (List.mem_cons_of_mem _ h)
      · simp only [hset, if_neg h1, if_neg h2, List.mem_cons] at h
        rcases h with h | h
        · exact Or.inr (by simp [h])
        · rcases ih h with h' | h'
          · exact Or.inl h'
          · exact Or.inr (List.mem_cons_of_mem _ h')

theorem mem_hdel {hs : HeadersL} {n : String} {p : String × String}
    (h : p ∈ hdel hs n) : p ∈ hs ∧ p.1 ≠ (lower n) := by
  have := List.mem_filter.mp h
  exact ⟨this.1, by simpa using this.2⟩

theorem find_ext {α : Type} (p q : α → Bool) (l : List α)
    (h : ∀ a ∈ l, p a = q a) : l.find? p = l.find? q := by
  induction l with
  | nil => rfl
  | cons a l ih =>
    by_cases hp : p a = true
    · rw [List.find?_cons_of_pos _ hp,
        List.find?_cons_of_pos _ (by rw [← h a (List.mem_cons_self a l)]; exact hp)]
    · rw [List.find?_cons_of_neg _ hp,
        List.find?_cons_of_neg _ (by rw [← h a (List.mem_cons_self a l)]; exact hp)]
      exact ih (fun a ha => h a (List.mem_cons_of_mem _ ha))

theorem hget_copy_aux (l acc : HeadersL) (m : String)
    (hl : ∀ p ∈ l, (lower p.1) = p.1) (hnd : (l.map Prod.fst).Nodup) :
    hget (l.foldl copyStep acc) m =
      match l.find? (fun p => p.1 == (lower m) && !skipName p.1) with
      | some q => some q.2
      | none => hget acc m := by
  induction l generalizing acc with
  | nil => rfl
  | cons p rest ih =>
    have hl' : ∀ q ∈ rest, (lower q.1) = q.1 :=
      fun q hq => hl q (List.mem_cons_of_mem _ hq)
    simp only [List.map_cons, List.nodup_cons] at hnd
    rw [List.foldl_cons, ih (copyStep acc p) hl' hnd.2]
    by_cases hp : (p.1 == (lower m) && !skipName p.1) = true
    · have hp1 : p.1 = (lower m) := by
        have := (Bool.and_eq_true _ _).mp hp
        exact beq_iff_eq.mp this.1
      have hsk : skipName p.1 = false := by
        have := (Bool.and_eq_true _ _).mp hp
        simpa using this.2
      have hrest : rest.find? (fun q => q.1 == (lower m) && !skipName q.1) = none := by
        apply List.find?_eq_none.mpr
        intro q hq hq'
        have hq1 : q.1 = (lower m) := by
          have := (Bool.and_eq_true _ _).mp hq'
          exact beq_iff_eq.mp this.1
        exact hnd.1 (by rw [← hp1, ← hq1] at *; exact List.mem_map_of_mem Prod.fst hq)
      have hcons : List.find? (fun q => q.1 == (lower m) && !skipName q.1) (p :: rest)
          = some p := List.find?_cons_of_pos _ hp
      rw [hrest, hcons]
      simp only [copyStep, hsk, if_neg (by simp [hsk] : ¬skipName p.1 = true)]
      exact hget_hset_eq acc p.2 (by rw [hl p (List.mem_cons_self p rest), hp1])
    · have hcons : List.find? (fun q => q.1 == (lower m) && !skipName q.1) (p :: rest)
          = List.find? (fun q => q.1 == (lower m) && !skipName q.1) rest :=
        List.find?_cons_of_neg _ hp
      rw [hcons]
      have hstep : hget (copyStep acc p) m = hget acc m := by
        by_cases hsk : skipName p.1 = true
        · simp only [copyStep, if_pos hsk]
        · have hp1 : p.1 ≠ (lower m) := by
            intro e
            apply hp
            rw [Bool.and_eq_true]
            exact ⟨beq_iff_eq.mpr e, by simpa using hsk⟩
          simp only [copyStep, if_neg hsk]
          exact hget_hset_ne acc p.2
            (by rw [hl p (List.mem_cons_self p rest)]; exact fun e => hp1 e.symm)
      cases hf : rest.find? (fun q => q.1 == (lower m) && !skipName q.1) <;>
        simp [hf, hstep]

theorem hget_copyHeaders (req : HeadersL) (m : String)
    (hl : ∀ p ∈ req, (lower p.1) = p.1) (hnd : (req.map Prod.fst).Nodup)
    (hmskip : skipName (lower m) = false) :
    hget (copyHeaders req) m = hget req m := by
  rw [copyHeaders, hget_copy_aux req [] m hl hnd]
  have hpe : req.find? (fun p => p.1 == (lower m) && !skipName p.1)
      = req.find? (fun p => p.1 == (lower m)) := by
    apply find_ext
    intro p _
    by_cases hp1 : p.1 = (lower m)
    · simp [hp1, hmskip]
    · simp [hp1]
  rw [hpe]
  cases hf : req.find? (fun p => p.1 == (lower m)) <;> simp [hget, hf]

theorem mem_copy_aux {l acc : HeadersL} {p : String × String}
    (h : p ∈ l.foldl copyStep acc) :
    (∃ q ∈ l, skipName q.1 = false ∧ p = ((lower q.1), q.2)) ∨ p ∈ acc := by
  induction l generalizing acc with
  | nil => exact Or.inr h
  | cons q rest ih =>
    rw [List.foldl_cons] at h
    rcases ih h with ⟨q', hq', hsk, he⟩ | hacc
    · exact Or.inl ⟨q', List.mem_cons_of_mem _ hq', hsk, he⟩
    · by_cases hsk : skipName q.1 = true
      · simp only [copyStep, if_pos hsk] at hacc
        exact Or.inr hacc
      · simp only [copyStep, if_neg hsk] at hacc
        rcases mem_hset hacc with he | hacc'
        · exact Or.inl ⟨q, List.mem_cons_self q rest, by simpa using hsk, he⟩
        · exact Or.inr hacc'

theorem ne_toLower_of {a b n : String} (e : (lower b) = a) (h : (lower n) ≠ a) :
    (lower n) ≠ (lower b) := by rw [e]; exact h

theorem hget_referrerBlock_other (originOf : String → String) (proxyUrl : String)
    (req ph : HeadersL) (n : String)
    (h1 : (lower n) ≠ "referer") (h2 : (lower n) ≠ "origin")
    (h3 : (lower n) ≠ "sec-fetch-site") :
    hget (referrerBlock originOf proxyUrl req ph) n = hget ph n := by
  unfold referrerBlock
  by_cases ht : jsTruthy (hget req "x-proxy-referer") = true
  · rw [if_pos ht]
    by_cases ho : originOf ((hget req "x-proxy-referer").getD "") ≠ originOf proxyUrl
    · rw [if_pos ho, hget_hset_ne _ _ (ne_toLower_of (by decide) h3),
        hget_hset_ne _ _ (ne_toLower_of (by decide) h2),
        hget_hset_ne _ _ (ne_toLower_of (by decide) h1)]
    · rw [if_neg ho, hget_hset_ne _ _ (ne_toLower_of (by decide) h3),
        hget_hdel_ne _ (ne_toLower_of (by decide) h2),
        hget_hset_ne _ _ (ne_toLower_of (by decide) h1)]
  · rw [if_neg ht]

theorem hget_uaBlock_other (req ph : HeadersL) (n : String)
    (h1 : (lower n) ≠ "x-proxy-user-agent") (h2 : (lower n) ≠ "user-agent") :
    hget (uaBlock req ph) n = hget ph n := by
  unfold uaBlock
  by_cases ht : jsTruthy (hget req "x-proxy-user-agent") = true
  · rw [if_pos ht, hget_hset_ne _ _ (ne_toLower_of (by decide) h2),
      hget_hdel_ne _ (ne_toLower_of (by decide) h1)]
  · rw [if_neg ht]

theorem hget_cookieBlock_other (req ph : HeadersL) (n : String)
    (h1 : (lower n) ≠ "cookie") :
    hget (cookieBlock req ph) n = hget ph n := by
  unfold cookieBlock
  by_cases ht : jsTruthy (hget req "x-proxy-cookie") = true
  · rw [if_pos ht, hget_hset_ne _ _ (ne_toLower_of (by decide) h1)]
  · rw [if_neg ht]

theorem hget_sidecar_other {β : Type} (resp : UpstreamResp β) (n : String)
    (h1 : (lower n) ≠ "x-proxy-set-cookie") :
    hget (sidecarHeaders resp) n = hget resp.headers n := by
  unfold sidecarHeaders
  by_cases ht : jsTruthy (hget resp.headers "set-cookie") = true
  · rw [if_pos ht, hget_hset_ne _ _ (ne_toLower_of (by decide) h1)]
  · rw [if_neg ht]

theorem hget_redirMeta_other {β : Type} (h : HeadersL) (resp : UpstreamResp β)
    (n : String)
    (h1 : (lower n) ≠ "x-redirect-status") (h2 : (lower n) ≠ "x-redirect-statustext")
    (h3 : (lower n) ≠ "x-orig-location") (h4 : (lower n) ≠ "x-orig-ts") :
    hget (redirMetaHeaders h resp) n = hget h n := by
  unfold redirMetaHeaders
  by_cases hm : resp.status ∈ redirectStatuses
  · rw [if_pos hm]
    have e1 : ∀ hh : HeadersL, hget (hset hh "x-redirect-status" (toString resp.status)) n = hget hh n :=
      fun hh => hget_hset_ne _ _ (ne_toLower_of (by decide) h1)
    have e2 : ∀ hh : HeadersL, hget (hset hh "x-redirect-statusText" resp.statusText) n = hget hh n :=
      fun hh => hget_hset_ne _ _ (ne_toLower_of (by decide) h2)
    have e3 : ∀ hh v, hget (hset hh "x-orig-location" v) n = hget hh n :=
      fun hh v => hget_hset_ne _ _ (ne_toLower_of (by decide) h3)
    have e4 : ∀ hh v, hget (hset hh "x-orig-ts" v) n = hget hh n :=
      fun hh v => hget_hset_ne _ _ (ne_toLower_of (by decide) h4)
    by_cases hts : jsTruthy resp.ts = true
    · rw [if_pos hts, e4]
      by_cases hl1 : jsTruthy (hget resp.headers "location") = true
      · rw [if_pos hl1, e3, e2, e1]
      · rw [if_neg hl1]
        by_cases hl2 : jsTruthy resp.location = true
        · rw [if_pos hl2, e3, e2, e1]
        · rw [if_neg hl2, e2, e1]
    · rw [if_neg hts]
      by_cases hl1 : jsTruthy (hget resp.headers "location") = true
      · rw [if_pos hl1, e3, e2, e1]
      · rw [if_neg hl1]
        by_cases hl2 : jsTruthy resp.location = true
        · rw [if_pos hl2, e3, e2, e1]
        · rw [if_neg hl2, e2, e1]
  · rw [if_neg hm]

theorem hget_addCORS_other (headers req respHeaders : HeadersL) (n : String)
    (h1 : (lower n) ≠ "access-control-allow-origin")
    (h2 : (lower n) ≠ "access-control-allow-credentials")
    (h3 : (lower n) ≠ "access-control-expose-headers") :
    hget (addCORSHeaders headers req respHeaders) n = hget headers n := by
  unfold addCORSHeaders
  by_cases ht : jsTruthy (hget req "Origin") = true
  · rw [if_pos ht, hget_hset_ne _ _ (ne_toLower_of (by decide) h3),
      hget_hset_ne _ _ (ne_toLower_of (by decide) h2),
      hget_hset_ne _ _ (ne_toLower_of (by decide) h1)]
  · rw [if_neg ht]

/-- Claim C10: for every inbound request whose method is GET or HEAD the
outbound upstream fetch is issued with a null body (so the pipeline result
does not depend on the inbound body), and for every other method the inbound
body stream is forwarded as the outbound body. -/
theorem claimC10_body_forwarding {β : Type} (method : String) (b : Option β) :
    ((method = "GET" ∨ method = "HEAD") → outboundBody method b = none)
    ∧ (¬(method = "GET" ∨ method = "HEAD") → outboundBody method b = b)
    ∧ ∀ (originOf : String → String)
        (oracle : String → String → HeadersL → Option β → UpstreamResp β)
        (fuel : Nat) (proxyUrl : String) (req : HeadersL) (b2 : Option β),
        (method = "GET" ∨ method = "HEAD") →
        handleLiveWebProxy originOf oracle fuel proxyUrl method req b
          = handleLiveWebProxy originOf oracle fuel proxyUrl method req b2 := by
  refine ⟨fun h => ?_, fun h => ?_, ?_⟩
  · rw [outboundBody, if_pos h]
  · rw [outboundBody, if_neg h]
  · intro originOf oracle fuel proxyUrl req b2 h
    simp only [handleLiveWebProxy, outboundBody, if_pos h]

/-- Claim C10 witness: a GET request discards the inbound body and a POST
request forwards it. -/
theorem claimC10_witness :
    outboundBody "GET" (some 0) = none ∧ outboundBody "POST" (some 0) = some 0 :=
  ⟨(claimC10_body_forwarding "GET" (some 0)).1 (Or.inl rfl),
   (claimC10_body_forwarding "POST" (some 0)).2.1 (by decide)⟩

/-- Claim C2, counterexample: the source gate is `300 < s < 400 && s != 304`,
not membership in {301, 302, 303, 307, 308}.  At upstream status 305 with a
timestamp-matching Location the fetcher follows the redirect instead of
returning the response unchanged. -/
theorem claimC2_counterexample :
    305 ∉ redirectStatuses
    ∧ redirStep "20200101000000id_/https://site.test/a.html" false
        (⟨305, "Use Proxy",
          [("location", "20200102000000id_/https://site.test/a.html")],
          none, none, none⟩ : UpstreamResp Unit)
      = RedirResult.continueTo "20200102000000id_/https://site.test/a.html"
    ∧ redirStep "20200101000000id_/https://site.test/a.html" false
        (⟨305, "Use Proxy",
          [("location", "20200102000000id_/https://site.test/a.html")],
          none, none, none⟩ : UpstreamResp Unit)
      ≠ RedirResult.done
        ⟨305, "Use Proxy",
          [("location", "20200102000000id_/https://site.test/a.html")],
          none, none, none⟩ := by
  refine ⟨by decide, by decide, by decide⟩

/-- Claim C2 (amended): the redirect inspection is applied exactly when
300 < status < 400 and status ≠ 304 (a superset of {301, 302, 303, 307, 308});
for every status outside that range, and in particular for 304, the fetcher
stops immediately and returns the response unchanged without examining the
Location header. -/
theorem claimC2_amended {β : Type} (url : String) (noHttps : Bool)
    (resp : UpstreamResp β) :
    (¬(300 < resp.status ∧ resp.status < 400 ∧ resp.status ≠ 304) →
      redirStep url noHttps resp = RedirResult.done resp)
    ∧ (resp.status = 304 → redirStep url noHttps resp = RedirResult.done resp) := by
  constructor
  · intro h
    unfold redirStep
    rw [if_neg h]
  · intro h
    unfold redirStep
    rw [if_neg (by rw [h]; simp)]

/-- Claim C2 witness: a 200 response and a 304 response (even with a Location
header) are returned unchanged. -/
theorem claimC2_witness :
    redirStep "u" false (⟨200, "OK", [], none, none, none⟩ : UpstreamResp Unit)
      = RedirResult.done ⟨200, "OK", [], none, none, none⟩
    ∧ redirStep "u" false
        (⟨304, "Not Modified", [("location", "https://x/")], none, none, none⟩ :
          UpstreamResp Unit)
      = RedirResult.done ⟨304, "Not Modified", [("location", "https://x/")], none, none, none⟩ :=
  ⟨(claimC2_amended "u" false ⟨200, "OK", [], none, none, none⟩).1 (by decide),
   (claimC2_amended "u" false ⟨304, "Not Modified", [("location", "https://x/")], none, none, none⟩).2 rfl⟩

/-- Claim C5: when a followable redirect response carries a Location header
and both the Location and the current target URL match the timestamp pattern
with identical captured absolute URLs, the fetcher sets the target URL to the
Location value and issues another fetch; the intermediate response is never
returned, so no redirect metadata is surfaced for it. -/
theorem claimC5_internal_redirect {β : Type} (url : String) (noHttps : Bool)
    (resp : UpstreamResp β) (oracle : String → UpstreamResp β) (n : Nat)
    (loc t1 t2 u : String)
    (hst : resp.status ∈ redirectStatuses)
    (hloc : hget resp.headers "location" = some loc)
    (hm : tsMatch loc = some (t1, u))
    (hm2 : tsMatch url = some (t2, u)) :
    redirStep url noHttps resp = RedirResult.continueTo loc
    ∧ (oracle url = resp →
        redirLoop oracle noHttps (n + 1) url = redirLoop oracle noHttps n loc) := by
  have hrange : 300 < resp.status ∧ resp.status < 400 ∧ resp.status ≠ 304 := by
    simp only [redirectStatuses, List.mem_cons, List.not_mem_nil, or_false] at hst
    rcases hst with h | h | h | h | h <;> omega
  have hne : loc ≠ "" := by
    intro e
    have hz : tsMatch "" = none := rfl
    rw [e, hz] at hm
    cases hm
  have hstep : redirStep url noHttps resp = RedirResult.continueTo loc := by
    unfold redirStep
    rw [if_pos hrange, hloc]
    simp [jsTruthy, hne, hm, hm2]
  refine ⟨hstep, fun ho => ?_⟩
  simp only [redirLoop, ho, hstep]

/-- Claim C5 witness: a 302 between two timestamped captures of the same
absolute URL is followed internally. -/
theorem claimC5_witness :
    redirStep "20200101000000id_/https://site.test/a.html" false
      (⟨302, "Found",
        [("location", "20200102000000id_/https://site.test/a.html")],
        none, none, none⟩ : UpstreamResp Unit)
      = RedirResult.continueTo "20200102000000id_/https://site.test/a.html"
    ∧ redirLoop
        (fun _ => (⟨302, "Found",
          [("location", "20200102000000id_/https://site.test/a.html")],
          none, none, none⟩ : UpstreamResp Unit)) false 1
        "20200101000000id_/https://site.test/a.html"
      = redirLoop
        (fun _ => (⟨302, "Found",
          [("location", "20200102000000id_/https://site.test/a.html")],
          none, none, none⟩ : UpstreamResp Unit)) false 0
        "20200102000000id_/https://site.test/a.html" := by
  have h := claimC5_internal_redirect "20200101000000id_/https://site.test/a.html" false
    (⟨302, "Found",
      [("location", "20200102000000id_/https://site.test/a.html")],
      none, none, none⟩ : UpstreamResp Unit)
    (fun _ => ⟨302, "Found",
      [("location", "20200102000000id_/https://site.test/a.html")],
      none, none, none⟩) 0
    "20200102000000id_/https://site.test/a.html" "20200102000000" "20200101000000"
    "https://site.test/a.html" (by decide) rfl rfl rfl
  exact ⟨h.1, h.2 rfl⟩

/-- Claim C3, counterexample: with no inbound Origin header, an upstream
response that itself carries Access-Control-Allow-Origin is copied into the
outgoing header map and not removed, so the outgoing response does carry an
Access-Control-Allow-Origin header. -/
theorem claimC3_counterexample :
    hget ([] : HeadersL) "Origin" = none
    ∧ hget (composeResponse ([] : HeadersL)
        (⟨200, "OK", [("access-control-allow-origin", "*")], none, none, none⟩ :
          UpstreamResp Unit)).headers "access-control-allow-origin" = some "*" := by
  refine ⟨rfl, by decide⟩

/-- Claim C3 (amended): for every inbound request without a (nonempty) Origin
header the pipeline synthesizes no CORS header, so the outgoing
Access-Control-Allow-Origin is exactly whatever the upstream response carried
(absent whenever the upstream carried none). -/
theorem claimC3_amended {β : Type} (req : HeadersL) (resp : UpstreamResp β)
    (h : jsTruthy (hget req "Origin") = false) :
    hget (composeResponse req resp).headers "access-control-allow-origin"
      = hget resp.headers "access-control-allow-origin" := by
  show hget (addCORSHeaders (redirMetaHeaders (sidecarHeaders resp) resp) req resp.headers)
      "access-control-allow-origin" = _
  unfold addCORSHeaders
  rw [if_neg (by simp [h])]
  rw [hget_redirMeta_other _ _ _ (by decide) (by decide) (by decide) (by decide),
    hget_sidecar_other _ _ (by decide)]

/-- Claim C3 witness: a 204 upstream response without CORS headers yields an
outgoing response without Access-Control-Allow-Origin. -/
theorem claimC3_witness :
    hget (composeResponse ([] : HeadersL)
      (⟨204, "No Content", [("server", "t")], none, none, none⟩ : UpstreamResp Unit)).headers
      "access-control-allow-origin"
    = hget [("server", "t")] "access-control-allow-origin" :=
  claimC3_amended [] ⟨204, "No Content", [("server", "t")], none, none, none⟩ (by decide)

theorem hget_if_hset_other {c : Prop} [Decidable c] (hs : HeadersL) (n v m : String)
    (h : (lower m) ≠ (lower n)) :
    hget (if c then hset hs n v else hs) m = hget hs m := by
  by_cases hc : c
  · rw [if_pos hc, hget_hset_ne _ _ h]
  · rw [if_neg hc]

theorem hget_locChain_other {c1 c2 : Prop} [Decidable c1] [Decidable c2]
    (hs : HeadersL) (v1 v2 m : String)
    (h : (lower m) ≠ (lower "x-orig-location")) :
    hget (if c1 then hset hs "x-orig-location" v1
          else if c2 then hset hs "x-orig-location" v2 else hs) m = hget hs m := by
  by_cases hc1 : c1
  · rw [if_pos hc1, hget_hset_ne _ _ h]
  · rw [if_neg hc1]
    by_cases hc2 : c2
    · rw [if_pos hc2, hget_hset_ne _ _ h]
    · rw [if_neg hc2]

/-- Claim C4: for every final upstream response whose status is in
{301, 302, 303, 307, 308} the outgoing response has status 200 and carries
`x-redirect-status` (the upstream status), `x-redirect-statusText` (the
upstream status text), `x-orig-location` from the upstream Location header or
else from the redirect-metadata target field, and `x-orig-ts` when a
redirect-metadata timestamp is present; for every other upstream status the
outgoing status equals the upstream status. -/
theorem claimC4_redirect_collapse {β : Type} (req : HeadersL) (resp : UpstreamResp β) :
    (resp.status ∈ redirectStatuses →
      (composeResponse req resp).status = 200
      ∧ hget (composeResponse req resp).headers "x-redirect-status"
          = some (toString resp.status)
      ∧ hget (composeResponse req resp).headers "x-redirect-statusText"
          = some resp.statusText
      ∧ (∀ l, hget resp.headers "location" = some l → l ≠ "" →
          hget (composeResponse req resp).headers "x-orig-location" = some l)
      ∧ (jsTruthy (hget resp.headers "location") = false →
          ∀ t, resp.location = some t → t ≠ "" →
          hget (composeResponse req resp).headers "x-orig-location" = some t)
      ∧ (∀ t, resp.ts = some t → t ≠ "" →
          hget (composeResponse req resp).headers "x-orig-ts" = some t))
    ∧ (resp.status ∉ redirectStatuses →
        (composeResponse req resp).status = resp.status) := by
  constructor
  · intro hmem
    refine ⟨?_, ?_, ?_, ?_, ?_, ?_⟩
    · show composeStatus resp = 200
      unfold composeStatus
      rw [if_pos hmem]
    · show hget (addCORSHeaders (redirMetaHeaders (sidecarHeaders resp) resp) req resp.headers)
        "x-redirect-status" = _
      rw [hget_addCORS_other _ _ _ _ (by decide) (by decide) (by decide)]
      simp only [redirMetaHeaders]
      rw [if_pos hmem, hget_if_hset_other _ _ _ _ (by decide),
        hget_locChain_other _ _ _ _ (by decide),
        hget_hset_ne _ _ (by decide), hget_hset_eq _ _ (by decide)]
    · show hget (addCORSHeaders (redirMetaHeaders (sidecarHeaders resp) resp) req resp.headers)
        "x-redirect-statusText" = _
      rw [hget_addCORS_other _ _ _ _ (by decide) (by decide) (by decide)]
      simp only [redirMetaHeaders]
      rw [if_pos hmem, hget_if_hset_other _ _ _ _ (by decide),
        hget_locChain_other _ _ _ _ (by decide),
        hget_hset_eq _ _ (by decide)]
    · intro l hl hlne
      have htr : jsTruthy (hget resp.headers "location") = true := by
        rw [hl]
        simp [jsTruthy, hlne]
      show hget (addCORSHeaders (redirMetaHeaders (sidecarHeaders resp) resp) req resp.headers)
        "x-orig-location" = _
      rw [hget_addCORS_other _ _ _ _ (by decide) (by decide) (by decide)]
      simp only [redirMetaHeaders]
      rw [if_pos hmem, hget_if_hset_other _ _ _ _ (by decide), if_pos htr,
        hget_hset_eq _ _ (by decide), hl]
      rfl
    · intro hl1 t ht htne
      have htr : jsTruthy resp.location = true := by
        rw [ht]
        simp [jsTruthy, htne]
      show hget (addCORSHeaders (redirMetaHeaders (sidecarHeaders resp) resp) req resp.headers)
        "x-orig-location" = _
      rw [hget_addCORS_other _ _ _ _ (by decide) (by decide) (by decide)]
      simp only [redirMetaHeaders]
      rw [if_pos hmem, hget_if_hset_other _ _ _ _ (by decide),
        if_neg (by simp [hl1]), if_pos htr, hget_hset_eq _ _ (by decide), ht]
      rfl
    · intro t ht htne
      have htr : jsTruthy resp.ts = true := by
        rw [ht]
        simp [jsTruthy, htne]
      show hget (addCORSHeaders (redirMetaHeaders (sidecarHeaders resp) resp) req resp.headers)
        "x-orig-ts" = _
      rw [hget_addCORS_other _ _ _ _ (by decide) (by decide) (by decide)]
      simp only [redirMetaHeaders]
      rw [if_pos hmem, if_pos htr, hget_hset_eq _ _ (by decide), ht]
      rfl
  · intro hmem
    show composeStatus resp = resp.status
    unfold composeStatus
    rw [if_neg hmem]

/-- Claim C4 witness: a final 302 with a Location header yields outgoing
status 200 with the redirect metadata headers, and a 404 keeps its status. -/
theorem claimC4_witness :
    (composeResponse ([] : HeadersL)
      (⟨302, "Found", [("location", "https://site.test/b.html")], none, none, none⟩ :
        UpstreamResp Unit)).status = 200
    ∧ hget (composeResponse ([] : HeadersL)
        (⟨302, "Found", [("location", "https://site.test/b.html")], none, none, none⟩ :
          UpstreamResp Unit)).headers "x-redirect-status" = some "302"
    ∧ hget (composeResponse ([] : HeadersL)
        (⟨302, "Found", [("location", "https://site.test/b.html")], none, none, none⟩ :
          UpstreamResp Unit)).headers "x-redirect-statusText" = some "Found"
    ∧ hget (composeResponse ([] : HeadersL)
        (⟨302, "Found", [("location", "https://site.test/b.html")], none, none, none⟩ :
          UpstreamResp Unit)).headers "x-orig-location" = some "https://site.test/b.html"
    ∧ (composeResponse ([] : HeadersL)
        (⟨404, "Not Found", [], none, none, none⟩ : UpstreamResp Unit)).status = 404 := by
  have h := claimC4_redirect_collapse ([] : HeadersL)
    (⟨302, "Found", [("location", "https://site.test/b.html")], none, none, none⟩ :
      UpstreamResp Unit)
  have h2 := claimC4_redirect_collapse ([] : HeadersL)
    (⟨404, "Not Found", [], none, none, none⟩ : UpstreamResp Unit)
  have hm := h.1 (by decide)
  exact ⟨hm.1, hm.2.1, hm.2.2.1,
    hm.2.2.2.1 "https://site.test/b.html" rfl (by decide), h2.2 (by decide)⟩

/-- Claim C7: when the final outgoing status is at least 400 and the upstream
response carries no (nonempty) memento-datetime marker, the body is the
literal error string for that status and the status is the upstream status
passed through; in every other case the upstream body is passed through. -/
theorem claimC7_error_body {β : Type} (req : HeadersL) (resp : UpstreamResp β) :
    (400 ≤ (composeResponse req resp).status
        ∧ jsTruthy (hget resp.headers "memento-datetime") = false →
      (composeResponse req resp).body
        = Sum.inl ("Sorry, this page was not found or could not be loaded: (Error "
            ++ toString (composeResponse req resp).status ++ ")")
      ∧ (composeResponse req resp).status = resp.status)
    ∧ (¬(400 ≤ (composeResponse req resp).status
          ∧ jsTruthy (hget resp.headers "memento-datetime") = false) →
      (composeResponse req resp).body = Sum.inr resp.body) := by
  constructor
  · intro h
    have h' : 400 ≤ composeStatus resp
        ∧ jsTruthy (hget resp.headers "memento-datetime") = false := h
    constructor
    · show (if 400 ≤ composeStatus resp
            ∧ jsTruthy (hget resp.headers "memento-datetime") = false then
          Sum.inl ("Sorry, this page was not found or could not be loaded: (Error "
            ++ toString (composeStatus resp) ++ ")")
        else Sum.inr resp.body) = _
      rw [if_pos h']
      rfl
    · have h4 : 400 ≤ composeStatus resp := h.1
      show composeStatus resp = resp.status
      unfold composeStatus at h4 ⊢
      by_cases hm : resp.status ∈ redirectStatuses
      · rw [if_pos hm] at h4
        omega
      · rw [if_neg hm]
  · intro h
    have h' : ¬(400 ≤ composeStatus resp
        ∧ jsTruthy (hget resp.headers "memento-datetime") = false) := h
    show (if 400 ≤ composeStatus resp
          ∧ jsTruthy (hget resp.headers "memento-datetime") = false then
        Sum.inl ("Sorry, this page was not found or could not be loaded: (Error "
          ++ toString (composeStatus resp) ++ ")")
      else Sum.inr resp.body) = _
    rw [if_neg h']

/-- Claim C7 witness: a 404 with no memento-datetime yields the literal error
body at status 404, and a 200 passes its body through. -/
theorem claimC7_witness :
    (composeResponse ([] : HeadersL)
      (⟨404, "Not Found", [], none, none, none⟩ : UpstreamResp Unit)).body
      = Sum.inl "Sorry, this page was not found or could not be loaded: (Error 404)"
    ∧ (composeResponse ([] : HeadersL)
        (⟨404, "Not Found", [], none, none, none⟩ : UpstreamResp Unit)).status = 404
    ∧ (composeResponse ([] : HeadersL)
        (⟨200, "OK", [], some (), none, none⟩ : UpstreamResp Unit)).body
      = Sum.inr (some ()) := by
  have h := (claimC7_error_body ([] : HeadersL)
    (⟨404, "Not Found", [], none, none, none⟩ : UpstreamResp Unit)).1 (by decide)
  have h2 := (claimC7_error_body ([] : HeadersL)
    (⟨200, "OK", [], some (), none, none⟩ : UpstreamResp Unit)).2 (by decide)
  exact ⟨h.1, h.2, h2⟩

/-- Claim C6: for every inbound request carrying a (nonempty) Origin header,
the outgoing Access-Control-Allow-Origin reflects exactly that origin,
Access-Control-Allow-Credentials is "true", and
Access-Control-Expose-Headers is the comma-joined fixed list followed by
every upstream header name except transfer-encoding and content-encoding. -/
theorem claimC6_cors_synthesis {β : Type} (req : HeadersL) (resp : UpstreamResp β)
    (o : String) (ho : hget req "Origin" = some o) (hone : o ≠ "") :
    hget (composeResponse req resp).headers "access-control-allow-origin" = some o
    ∧ hget (composeResponse req resp).headers "access-control-allow-credentials"
        = some "true"
    ∧ hget (composeResponse req resp).headers "access-control-expose-headers"
        = some (String.intercalate ","
            (["x-redirect-status", "x-redirect-statusText", "X-Proxy-Set-Cookie",
              "x-orig-location", "x-orig-ts"]
              ++ (resp.headers.map Prod.fst).filter
                (fun h => !(h == "transfer-encoding" || h == "content-encoding")))) := by
  have htr : jsTruthy (hget req "Origin") = true := by
    rw [ho]
    simp [jsTruthy, hone]
  refine ⟨?_, ?_, ?_⟩
  · show hget (addCORSHeaders (redirMetaHeaders (sidecarHeaders resp) resp) req resp.headers)
      "access-control-allow-origin" = _
    simp only [addCORSHeaders]
    rw [if_pos htr, hget_hset_ne _ _ (by decide), hget_hset_ne _ _ (by decide),
      hget_hset_eq _ _ (by decide), ho]
    rfl
  · show hget (addCORSHeaders (redirMetaHeaders (sidecarHeaders resp) resp) req resp.headers)
      "access-control-allow-credentials" = _
    simp only [addCORSHeaders]
    rw [if_pos htr, hget_hset_ne _ _ (by decide), hget_hset_eq _ _ (by decide)]
  · show hget (addCORSHeaders (redirMetaHeaders (sidecarHeaders resp) resp) req resp.headers)
      "access-control-expose-headers" = _
    simp only [addCORSHeaders]
    rw [if_pos htr, hget_hset_eq _ _ (by decide)]

/-- Claim C6 witness: with Origin https://example.com and one upstream
header, the three CORS headers are synthesized as stated. -/
theorem claimC6_witness :
    hget (composeResponse [("origin", "https://example.com")]
        (⟨200, "OK", [("content-type", "text/html")], none, none, none⟩ :
          UpstreamResp Unit)).headers "access-control-allow-origin"
      = some "https://example.com"
    ∧ hget (composeResponse [("origin", "https://example.com")]
        (⟨200, "OK", [("content-type", "text/html")], none, none, none⟩ :
          UpstreamResp Unit)).headers "access-control-allow-credentials" = some "true"
    ∧ hget (composeResponse [("origin", "https://example.com")]
        (⟨200, "OK", [("content-type", "text/html")], none, none, none⟩ :
          UpstreamResp Unit)).headers "access-control-expose-headers"
      = some "x-redirect-status,x-redirect-statusText,X-Proxy-Set-Cookie,x-orig-location,x-orig-ts,content-type" :=
  claimC6_cors_synthesis [("origin", "https://example.com")]
    (⟨200, "OK", [("content-type", "text/html")], none, none, none⟩ : UpstreamResp Unit)
    "https://example.com" rfl (by decide)

/-- Claim C8: when the inbound request carries a (nonempty) X-Proxy-Referer,
the outbound Referer is set to it; if the referrer origin differs from the
target origin, Origin is set to the referrer origin and Sec-Fetch-Site to
cross-origin, and if they match, Origin is removed and Sec-Fetch-Site is
same-origin. -/
theorem claimC8_referrer (originOf : String → String) (proxyUrl : String)
    (req : HeadersL) (r : String)
    (hr : hget req "x-proxy-referer" = some r) (hrne : r ≠ "") :
    hget (buildProxyHeaders originOf proxyUrl req) "referer" = some r
    ∧ (originOf r ≠ originOf proxyUrl →
        hget (buildProxyHeaders originOf proxyUrl req) "origin" = some (originOf r)
        ∧ hget (buildProxyHeaders originOf proxyUrl req) "sec-fetch-site"
            = some "cross-origin")
    ∧ (originOf r = originOf proxyUrl →
        hget (buildProxyHeaders originOf proxyUrl req) "origin" = none
        ∧ hget (buildProxyHeaders originOf proxyUrl req) "sec-fetch-site"
            = some "same-origin") := by
  have htr : jsTruthy (some r) = true := by simp [jsTruthy, hrne]
  have hred : ∀ n : String, (lower n) ≠ "cookie" → (lower n) ≠ "host" →
      (lower n) ≠ "x-proxy-user-agent" → (lower n) ≠ "user-agent" →
      hget (buildProxyHeaders originOf proxyUrl req) n
        = hget (referrerBlock originOf proxyUrl req (copyHeaders req)) n := by
    intro n h1 h2 h3 h4
    unfold buildProxyHeaders
    rw [hget_cookieBlock_other _ _ _ h1, hget_hdel_ne _ (ne_toLower_of (by decide) h2),
      hget_uaBlock_other _ _ _ h3 h4]
  refine ⟨?_, fun ho => ⟨?_, ?_⟩, fun ho => ⟨?_, ?_⟩⟩
  · rw [hred "referer" (by decide) (by decide) (by decide) (by decide)]
    simp only [referrerBlock, hr, Option.getD_some]
    rw [if_pos htr]
    by_cases ho : originOf r ≠ originOf proxyUrl
    · rw [if_pos ho, hget_hset_ne _ _ (by decide), hget_hset_ne _ _ (by decide),
        hget_hset_eq _ _ (by decide)]
    · rw [if_neg ho, hget_hset_ne _ _ (by decide),
        hget_hdel_ne _ (by decide), hget_hset_eq _ _ (by decide)]
  · rw [hred "origin" (by decide) (by decide) (by decide) (by decide)]
    simp only [referrerBlock, hr, Option.getD_some]
    rw [if_pos htr, if_pos ho, hget_hset_ne _ _ (by decide), hget_hset_eq _ _ (by decide)]
  · rw [hred "sec-fetch-site" (by decide) (by decide) (by decide) (by decide)]
    simp only [referrerBlock, hr, Option.getD_some]
    rw [if_pos htr, if_pos ho, hget_hset_eq _ _ (by decide)]
  · rw [hred "origin" (by decide) (by decide) (by decide) (by decide)]
    simp only [referrerBlock, hr, Option.getD_some]
    rw [if_pos htr, if_neg (fun hc => hc ho), hget_hset_ne _ _ (by decide),
      hget_hdel_eq _ (by decide)]
  · rw [hred "sec-fetch-site" (by decide) (by decide) (by decide) (by decide)]
    simp only [referrerBlock, hr, Option.getD_some]
    rw [if_pos htr, if_neg (fun hc => hc ho), hget_hset_eq _ _ (by decide)]

/-- Claim C8 witness: a cross-origin referrer sets Origin and Sec-Fetch-Site,
and a same-origin referrer removes Origin. -/
theorem claimC8_witness :
    hget (buildProxyHeaders (fun s => s) "https://site.test"
      [("x-proxy-referer", "https://ref.example")]) "referer" = some "https://ref.example"
    ∧ hget (buildProxyHeaders (fun s => s) "https://site.test"
      [("x-proxy-referer", "https://ref.example")]) "origin" = some "https://ref.example"
    ∧ hget (buildProxyHeaders (fun s => s) "https://site.test"
      [("x-proxy-referer", "https://ref.example")]) "sec-fetch-site" = some "cross-origin"
    ∧ hget (buildProxyHeaders (fun s => s) "https://site.test"
      [("origin", "https://o.example"), ("x-proxy-referer", "https://site.test")])
      "origin" = none
    ∧ hget (buildProxyHeaders (fun s => s) "https://site.test"
      [("origin", "https://o.example"), ("x-proxy-referer", "https://site.test")])
      "sec-fetch-site" = some "same-origin" := by
  have h1 := claimC8_referrer (fun s => s) "https://site.test"
    [("x-proxy-referer", "https://ref.example")] "https://ref.example" rfl (by decide)
  have h2 := claimC8_referrer (fun s => s) "https://site.test"
    [("origin", "https://o.example"), ("x-proxy-referer", "https://site.test")]
    "https://site.test" rfl (by decide)
  exact ⟨h1.1, (h1.2.1 (by decide)).1, (h1.2.1 (by decide)).2,
    (h2.2.2 rfl).1, (h2.2.2 rfl).2⟩

/-- Claim C9: for OPTIONS requests, a configured allow-list rejects a present
origin absent from it with a 403 JSON error; otherwise when Origin,
Access-Control-Request-Method and Access-Control-Request-Headers are all
present, a preflight response echoes them with credentials allowed; otherwise
the response carries only Allow: GET, HEAD, POST, OPTIONS. -/
theorem claimC9_options (req : HeadersL) (L : List String)
    (hL : CORS_ALLOWED_ORIGINS = some L) :
    (∀ o, hget req "Origin" = some o → o ≠ "" → o ∉ L →
      handleOptions req = notFound "origin not allowed" 403)
    ∧ (∀ o m h, hget req "Origin" = some o → o ∈ L →
        hget req "Access-Control-Request-Method" = some m →
        hget req "Access-Control-Request-Headers" = some h →
        hget (handleOptions req).headers "access-control-allow-method" = some m
        ∧ hget (handleOptions req).headers "access-control-allow-headers" = some h
        ∧ hget (handleOptions req).headers "access-control-allow-origin" = some o
        ∧ hget (handleOptions req).headers "access-control-allow-credentials"
            = some "true")
    ∧ ((hget req "Origin" = none ∨ hget req "Access-Control-Request-Method" = none
          ∨ hget req "Access-Control-Request-Headers" = none) →
        ¬(jsTruthy (hget req "Origin") = true ∧ (hget req "Origin").getD "" ∉ L) →
        (handleOptions req).headers = [("allow", "GET, HEAD, POST, OPTIONS")]) := by
  have hLc : L = ["http://localhost:10001", "http://localhost:8000",
      "http://localhost:3000", "https://proxy-test.slax.dev"] := by
    have h0 : CORS_ALLOWED_ORIGINS = some ["http://localhost:10001",
      "http://localhost:8000", "http://localhost:3000", "https://proxy-test.slax.dev"] := rfl
    exact (Option.some.inj (h0.symm.trans hL)).symm
  subst hLc
  refine ⟨?_, ?_, ?_⟩
  · intro o ho hone hno
    have hc : List.contains ["http://localhost:10001", "http://localhost:8000",
        "http://localhost:3000", "https://proxy-test.slax.dev"] o = false := by
      cases hcc : List.contains ["http://localhost:10001", "http://localhost:8000",
        "http://localhost:3000", "https://proxy-test.slax.dev"] o
      · rfl
      · exact absurd (List.mem_of_elem_eq_true hcc) hno
    have hdis : originDisallowed (hget req "Origin") = true := by
      simp only [originDisallowed, CORS_ALLOWED_ORIGINS, ho, Option.getD_some]
      rw [hc]
      simp [jsTruthy, hone]
    simp only [handleOptions]
    rw [if_pos hdis]
  · intro o m h ho hoL hm hh
    have hc : List.contains ["http://localhost:10001", "http://localhost:8000",
        "http://localhost:3000", "https://proxy-test.slax.dev"] o = true :=
      List.elem_eq_true_of_mem hoL
    have hdis : originDisallowed (hget req "Origin") = false := by
      simp only [originDisallowed, CORS_ALLOWED_ORIGINS, ho, Option.getD_some]
      rw [hc]
      simp
    simp only [handleOptions]
    rw [if_neg (by simp [hdis]), if_pos (by rw [ho, hm, hh]; rfl), ho, hm, hh]
    refine ⟨?_, ?_, ?_, ?_⟩
    · show hget (hset (hset (hset (hset [] "Access-Control-Allow-Method" m)
          "Access-Control-Allow-Headers" h) "Access-Control-Allow-Origin" o)
          "Access-Control-Allow-Credentials" "true") "access-control-allow-method" = some m
      rw [hget_hset_ne _ _ (by decide), hget_hset_ne _ _ (by decide),
        hget_hset_ne _ _ (by decide), hget_hset_eq _ _ (by decide)]
    · show hget (hset (hset (hset (hset [] "Access-Control-Allow-Method" m)
          "Access-Control-Allow-Headers" h) "Access-Control-Allow-Origin" o)
          "Access-Control-Allow-Credentials" "true") "access-control-allow-headers" = some h
      rw [hget_hset_ne _ _ (by decide), hget_hset_ne _ _ (by decide),
        hget_hset_eq _ _ (by decide)]
    · show hget (hset (hset (hset (hset [] "Access-Control-Allow-Method" m)
          "Access-Control-Allow-Headers" h) "Access-Control-Allow-Origin" o)
          "Access-Control-Allow-Credentials" "true") "access-control-allow-origin" = some o
      rw [hget_hset_ne _ _ (by decide), hget_hset_eq _ _ (by decide)]
    · show hget (hset (hset (hset (hset [] "Access-Control-Allow-Method" m)
          "Access-Control-Allow-Headers" h) "Access-Control-Allow-Origin" o)
          "Access-Control-Allow-Credentials" "true") "access-control-allow-credentials"
          = some "true"
      rw [hget_hset_eq _ _ (by decide)]
  · intro hnone hnd
    have hdis : originDisallowed (hget req "Origin") = false := by
      simp only [originDisallowed, CORS_ALLOWED_ORIGINS]
      by_cases ht : jsTruthy (hget req "Origin") = true
      · have hin : (hget req "Origin").getD ""
            ∈ ["http://localhost:10001", "http://localhost:8000",
              "http://localhost:3000", "https://proxy-test.slax.dev"] := by
          by_contra hni
          exact hnd ⟨ht, hni⟩
        have hc : List.contains ["http://localhost:10001", "http://localhost:8000",
            "http://localhost:3000", "https://proxy-test.slax.dev"]
            ((hget req "Origin").getD "") = true := List.elem_eq_true_of_mem hin
        rw [hc]
        simp
      · have htf : jsTruthy (hget req "Origin") = false := by simpa using ht
        simp [htf]
    have hsome : ((hget req "Origin").isSome
        && (hget req "Access-Control-Request-Method").isSome
        && (hget req "Access-Control-Request-Headers").isSome) = false := by
      rcases hnone with hn | hn | hn <;> simp [hn]
    simp only [handleOptions]
    rw [if_neg (by simp [hdis]), if_neg (by simp [hsome])]
    rfl

/-- Claim C9 witness: a disallowed origin yields the 403 JSON error, a
listed origin with both preflight headers yields the echoing preflight
response, and a bare OPTIONS request yields only the Allow header. -/
theorem claimC9_witness :
    handleOptions [("origin", "https://evil.example")]
      = notFound "origin not allowed" 403
    ∧ hget (handleOptions [("access-control-request-headers", "content-type"),
        ("access-control-request-method", "PUT"), ("origin", "http://localhost:8000")]).headers
        "access-control-allow-method" = some "PUT"
    ∧ hget (handleOptions [("access-control-request-headers", "content-type"),
        ("access-control-request-method", "PUT"), ("origin", "http://localhost:8000")]).headers
        "access-control-allow-origin" = some "http://localhost:8000"
    ∧ (handleOptions ([] : HeadersL)).headers = [("allow", "GET, HEAD, POST, OPTIONS")] := by
  have h1 := (claimC9_options [("origin", "https://evil.example")] _ rfl).1
    "https://evil.example" rfl (by decide) (by decide)
  have h2 := (claimC9_options [("access-control-request-headers", "content-type"),
    ("access-control-request-method", "PUT"), ("origin", "http://localhost:8000")] _ rfl).2.1
    "http://localhost:8000" "PUT" "content-type" rfl (by decide) rfl rfl
  have h3 := (claimC9_options ([] : HeadersL) _ rfl).2.2 (Or.inl rfl) (by decide)
  exact ⟨h1, h2.1, h2.2.2.1, h3⟩

theorem copy_skipName {req : HeadersL} (hl : ∀ p ∈ req, lower p.1 = p.1) :
    ∀ p ∈ copyHeaders req, skipName p.1 = false := by
  intro p hp
  rcases mem_copy_aux hp with ⟨q, hq, hsk, he⟩ | habs
  · rw [he]
    show skipName (lower q.1) = false
    rw [hl q hq]
    exact hsk
  · cases habs

theorem good_of_not_skip {n : String} (h : skipName n = false) : goodName n := by
  have h' := h
  simp only [skipName, Bool.or_eq_false_iff] at h'
  exact ⟨h'.1.1, h'.1.2, by simpa using h'.2⟩

theorem good_hset {hs : HeadersL} {n v : String}
    (hhs : ∀ p ∈ hs, goodName p.1) (hn : goodName (lower n)) :
    ∀ p ∈ hset hs n v, goodName p.1 := by
  intro p hp
  rcases mem_hset hp with he | hp2
  · rw [he]
    exact hn
  · exact hhs p hp2

theorem good_hdel {hs : HeadersL} {n : String}
    (hhs : ∀ p ∈ hs, goodName p.1) :
    ∀ p ∈ hdel hs n, goodName p.1 :=
  fun p hp => hhs p (mem_hdel hp).1

/-- Claim C1, counterexample: the source translates `x-proxy-cookie` into
`Cookie` but never deletes the `x-proxy-cookie` entry from the outbound map,
so an inbound `X-Proxy-Cookie: session=abc` yields an outbound map containing
both `cookie: session=abc` and `x-proxy-cookie: session=abc`. -/
theorem claimC1_counterexample :
    hget (buildProxyHeaders (fun s => s) "https://t"
      [("x-proxy-cookie", "session=abc")]) "cookie" = some "session=abc"
    ∧ hget (buildProxyHeaders (fun s => s) "https://t"
      [("x-proxy-cookie", "session=abc")]) "x-proxy-cookie" = some "session=abc" :=
  ⟨by decide, by decide⟩

/-- Claim C1 (amended): the outbound header map never contains a header whose
name starts with cf- or x-pywb-, never contains Host, and never contains the
filtered X-Proxy-Referer; a (nonempty) inbound X-Proxy-Cookie is translated
to an outbound Cookie with the same value, but the x-proxy-cookie entry
itself remains present in the outbound map (it is not deleted); a (nonempty)
inbound X-Proxy-User-Agent is absent from the outbound map once translated. -/
theorem claimC1_amended (originOf : String → String) (proxyUrl : String)
    (req : HeadersL)
    (hl : ∀ p ∈ req, lower p.1 = p.1) (hnd : (req.map Prod.fst).Nodup) :
    (∀ p ∈ buildProxyHeaders originOf proxyUrl req,
      strStartsWith p.1 "cf-" = false ∧ strStartsWith p.1 "x-pywb-" = false
      ∧ p.1 ≠ "host" ∧ p.1 ≠ "x-proxy-referer")
    ∧ (∀ c, hget req "x-proxy-cookie" = some c → c ≠ "" →
        hget (buildProxyHeaders originOf proxyUrl req) "cookie" = some c
        ∧ hget (buildProxyHeaders originOf proxyUrl req) "x-proxy-cookie" = some c)
    ∧ (jsTruthy (hget req "x-proxy-user-agent") = true →
        hget (buildProxyHeaders originOf proxyUrl req) "x-proxy-user-agent" = none) := by
  have hcopy : ∀ p ∈ copyHeaders req, goodName p.1 :=
    fun p hp => good_of_not_skip (copy_skipName hl p hp)
  have hrefgood : ∀ p ∈ referrerBlock originOf proxyUrl req (copyHeaders req),
      goodName p.1 := by
    unfold referrerBlock
    by_cases ht : jsTruthy (hget req "x-proxy-referer") = true
    · rw [if_pos ht]
      by_cases ho : originOf ((hget req "x-proxy-referer").getD "")
          ≠ originOf proxyUrl
      · rw [if_pos ho]
        exact good_hset (good_hset (good_hset hcopy (by decide)) (by decide)) (by decide)
      · rw [if_neg ho]
        exact good_hset (good_hdel (good_hset hcopy (by decide))) (by decide)
    · rw [if_neg ht]
      exact hcopy
  have huagood : ∀ p ∈ uaBlock req (referrerBlock originOf proxyUrl req (copyHeaders req)),
      goodName p.1 := by
    unfold uaBlock
    by_cases ht : jsTruthy (hget req "x-proxy-user-agent") = true
    · rw [if_pos ht]
      exact good_hset (good_hdel hrefgood) (by decide)
    · rw [if_neg ht]
      exact hrefgood
  have hdelgood : ∀ p ∈ hdel (uaBlock req
      (referrerBlock originOf proxyUrl req (copyHeaders req))) "host",
      goodName p.1 ∧ p.1 ≠ "host" := by
    intro p hp
    have hm := mem_hdel hp
    exact ⟨huagood p hm.1, by
      intro he
      exact hm.2 (by rw [he]; decide)⟩
  constructor
  · intro p hp
    have hfin : goodName p.1 ∧ p.1 ≠ "host" := by
      revert hp
      show p ∈ buildProxyHeaders originOf proxyUrl req → _
      unfold buildProxyHeaders cookieBlock
      by_cases ht : jsTruthy (hget req "x-proxy-cookie") = true
      · rw [if_pos ht]
        intro hp
        rcases mem_hset hp with he | hp2
        · rw [he]
          exact ⟨(by decide : goodName (lower "Cookie")),
            (by decide : lower "Cookie" ≠ "host")⟩
        · exact hdelgood p hp2
      · rw [if_neg ht]
        exact hdelgood p
    exact ⟨hfin.1.1, hfin.1.2.1, hfin.2, hfin.1.2.2⟩
  constructor
  · intro c hc hcne
    have ht : jsTruthy (hget req "x-proxy-cookie") = true := by
      rw [hc]
      simp [jsTruthy, hcne]
    constructor
    · show hget (cookieBlock req _) "cookie" = some c
      unfold cookieBlock
      rw [if_pos ht, hc, Option.getD_some, hget_hset_eq _ _ (by decide)]
    · show hget (cookieBlock req _) "x-proxy-cookie" = some c
      rw [hget_cookieBlock_other _ _ _ (by decide),
        hget_hdel_ne _ (by decide),
        hget_uaBlock_other _ _ _ (by decide) (by decide),
        hget_referrerBlock_other _ _ _ _ _ (by decide) (by decide) (by decide),
        hget_copyHeaders req _ hl hnd (by decide), hc]
  · intro ht
    show hget (cookieBlock req _) "x-proxy-user-agent" = none
    rw [hget_cookieBlock_other _ _ _ (by decide), hget_hdel_ne _ (by decide)]
    unfold uaBlock
    rw [if_pos ht, hget_hset_ne _ _ (by decide), hget_hdel_eq _ (by decide)]

/-- Claim C1 witness: a well-formed inbound map with an x-proxy-cookie entry
produces a sanitized outbound map with the cookie translated (and, per the
correction, the x-proxy-cookie entry still present). -/
theorem claimC1_witness :
    (∀ p ∈ buildProxyHeaders (fun s => s) "https://t.example"
        [("accept", "text/html"), ("cf-ray", "1"), ("host", "proxy.example"),
          ("x-proxy-cookie", "session=abc")],
      strStartsWith p.1 "cf-" = false ∧ strStartsWith p.1 "x-pywb-" = false
      ∧ p.1 ≠ "host" ∧ p.1 ≠ "x-proxy-referer")
    ∧ hget (buildProxyHeaders (fun s => s) "https://t.example"
        [("accept", "text/html"), ("cf-ray", "1"), ("host", "proxy.example"),
          ("x-proxy-cookie", "session=abc")]) "cookie" = some "session=abc"
    ∧ hget (buildProxyHeaders (fun s => s) "https://t.example"
        [("accept", "text/html"), ("cf-ray", "1"), ("host", "proxy.example"),
          ("x-proxy-cookie", "session=abc")]) "x-proxy-cookie" = some "session=abc" := by
  have h := claimC1_amended (fun s => s) "https://t.example"
    [("accept", "text/html"), ("cf-ray", "1"), ("host", "proxy.example"),
      ("x-proxy-cookie", "session=abc")] (by decide) (by decide)
  exact ⟨h.1, (h.2.1 "session=abc" rfl (by decide)).1,
    (h.2.1 "session=abc" rfl (by decide)).2⟩
